import Mathlib

set_option autoImplicit false

/-!
Verification development for the gsopt stateless optimization orchestrator.

The Python sources are shallowly embedded: Python float values become an
extended-rational type `NumVal` (exact rationals plus `nan`/`±inf`; binary
rounding and overflow of IEEE-754 doubles are abstracted away, which no
property below depends on), JSON/dict values become `PyVal`, dict records
become association lists, and the opaque optimization engines (scikit-optimize,
nevergrad, SQSnobFit) become oracle function parameters, as the spec treats
them as external collaborators consumed through their own contracts.
Randomness (`np.random.uniform`) is modelled by an explicit stream of
unit-interval samples.
-/

namespace GsOpt

/-- A Python float value: an exact rational, or one of the IEEE specials. -/
inductive NumVal where
  | fin (q : ℚ)
  | nan
  | pinf
  | ninf
  deriving DecidableEq, Repr

/-- Python `abs` on floats (`abs(nan) = nan`, `abs(±inf) = inf`). -/
def pyAbs : NumVal → NumVal
  | .fin q => .fin |q|
  | .nan => .nan
  | .pinf => .pinf
  | .ninf => .pinf

/-- Python `>` on floats; any comparison with `nan` is `False`. -/
def pyGt : NumVal → NumVal → Bool
  | .fin a, .fin b => a > b
  | .nan, _ => false
  | _, .nan => false
  | .pinf, .pinf => false
  | .pinf, _ => true
  | _, .pinf => false
  | .ninf, _ => false
  | .fin _, .ninf => true

/-- Python `>=` on floats; any comparison with `nan` is `False`. -/
def pyGe : NumVal → NumVal → Bool
  | .fin a, .fin b => a ≥ b
  | .nan, _ => false
  | _, .nan => false
  | .pinf, _ => true
  | _, .pinf => false
  | .ninf, .ninf => true
  | .ninf, .fin _ => false
  | .fin _, .ninf => true

/-- A JSON-decoded Python scalar as it appears in request payloads. -/
inductive PyVal where
  | vNone
  | vInt (n : ℤ)
  | vStr (s : String)
  | vNum (x : NumVal)
  deriving DecidableEq, Repr

/-- The whitespace characters stripped by Python's `str.strip()` /
`float(str)` (ASCII subset). -/
def isPyWS (c : Char) : Bool :=
  c = ' ' || c = '\t' || c = '\n' || c = '\r' || c = Char.ofNat 11 || c = Char.ofNat 12

def dropLeadWS : List Char → List Char
  | [] => []
  | c :: cs => if isPyWS c then dropLeadWS cs else c :: cs

def stripWS (cs : List Char) : List Char :=
  (dropLeadWS ((dropLeadWS cs).reverse)).reverse

def natOfDigits (ds : List Char) : ℕ :=
  ds.foldl (fun a c => 10 * a + (c.toNat - 48)) 0

/-- Exponent suffix of a float literal: empty, or `e`/`E` with optional sign
and a non-empty digit run. -/
def expPart (m : ℚ) : List Char → Option ℚ
  | [] => some m
  | c :: cs =>
    if c = 'e' || c = 'E' then
      let (sgn, ds) : ℤ × List Char :=
        match cs with
        | '+' :: t => (1, t)
        | '-' :: t => (-1, t)
        | t => (1, t)
      if ds ≠ [] ∧ ds.all Char.isDigit then
        some (m * (10 : ℚ) ^ (sgn * (natOfDigits ds : ℤ)))
      else none
    else none

/-- An unsigned decimal float literal: digits, optional `.digits`, optional
exponent; at least one digit is required. -/
def decLit (cs : List Char) : Option ℚ :=
  let ip := cs.takeWhile Char.isDigit
  let rest := cs.dropWhile Char.isDigit
  match rest with
  | '.' :: rest2 =>
    let fp := rest2.takeWhile Char.isDigit
    let rest3 := rest2.dropWhile Char.isDigit
    if ip = [] ∧ fp = [] then none
    else expPart ((natOfDigits ip : ℚ) + (natOfDigits fp : ℚ) / (10 : ℚ) ^ fp.length) rest3
  | _ =>
    if ip = [] then none
    else expPart (natOfDigits ip : ℚ) rest

/-- Model of Python's `float(str)`: strips whitespace, then an optional sign
followed by a decimal literal or the case-insensitive words
`inf`/`infinity`/`nan`.  Returns `none` where Python raises `ValueError`. -/
def strToFloat (s : String) : Option NumVal :=
  let cs := stripWS s.toList
  let (sgn, body) : ℤ × List Char :=
    match cs with
    | '+' :: t => (1, t)
    | '-' :: t => (-1, t)
    | t => (1, t)
  let lb := body.map Char.toLower
  if lb = "inf".toList || lb = "infinity".toList then
    some (if sgn = 1 then .pinf else .ninf)
  else if lb = "nan".toList then some .nan
  else
    match decLit body with
    | some q => some (.fin ((sgn : ℚ) * q))
    | none => none

/-- Model of Python's `float(x)` on request-payload scalars: `none` where
Python raises `TypeError`/`ValueError`. -/
def pyFloat : PyVal → Option NumVal
  | .vNone => none
  | .vInt n => some (.fin (n : ℚ))
  | .vStr s => strToFloat s
  | .vNum x => some x

/-- A request record (a JSON object): an association list keyed by field
name, first match wins (Python dicts have unique keys). -/
abbrev Rec := List (String × PyVal)

def recGet (r : Rec) (k : String) : Option PyVal :=
  match r.find? (fun p => p.1 == k) with
  | some p => some p.2
  | none => none

example : strToFloat "" = none := by decide
example : strToFloat " " = none := by decide
example : strToFloat "1.5" = some (.fin ((15 : ℚ) / 10)) := by
  simp [strToFloat, stripWS, dropLeadWS, decLit, expPart, natOfDigits, isPyWS]
  norm_num
example : strToFloat "inf" = some .pinf := by decide
example : strToFloat "NaN" = some .nan := by decide
example : pyFloat (.vStr "abc") = none := by decide

/-! ## History parsers

Three `parse_training_data` functions exist in the sources.  The one in
`skopt_bayes.py` indexes `row[name]` (a missing parameter raises `KeyError`,
caught and skipped) and skips on `str(row['objective']).strip() == ''`; the
ones in `opt_nevergrad.py` and `opt_snobfit.py` are textually identical to
each other, use `row.get(name, 0)` (a missing parameter is replaced by `0`)
and skip on `row['objective'] == ''`. -/

def isNone : PyVal → Bool
  | .vNone => true
  | _ => false

/-- `str(v).strip() == ''`: only a whitespace-only string has a
whitespace-only `str()` representation (`str(None)` is `"None"`, numbers
print digits). -/
def strStripEmpty : PyVal → Bool
  | .vStr s => stripWS s.toList = []
  | _ => false

/-- Skip test of `skopt_bayes.parse_training_data` (line 144):
`'objective' not in row or row['objective'] is None or
str(row['objective']).strip() == ''`. -/
def sk_objective_missing (r : Rec) : Bool :=
  match recGet r "objective" with
  | none => true
  | some v => isNone v || strStripEmpty v

/-- `[float(row[name]) for name in param_names]` (skopt variant):
`none` when a name is absent (`KeyError`) or a value fails to coerce. -/
def sk_collect_x : List String → Rec → Option (List NumVal)
  | [], _ => some []
  | nm :: rest, r =>
    match (recGet r nm).bind pyFloat with
    | some v => (sk_collect_x rest r).map (fun xs => v :: xs)
    | none => none

/-- One loop iteration of `skopt_bayes.parse_training_data`: `none` means
the record is skipped (missing objective, or a caught exception). -/
def sk_row_out (names : List String) (r : Rec) : Option (List NumVal × NumVal) :=
  if sk_objective_missing r then none
  else
    match sk_collect_x names r, (recGet r "objective").bind pyFloat with
    | some xs, some y => some (xs, y)
    | _, _ => none

/-- `skopt_bayes.parse_training_data` (lines 120-163). -/
def sk_parse_training_data : List Rec → List String → List (List NumVal) × List NumVal
  | [], _ => ([], [])
  | r :: rest, names =>
    match sk_row_out names r with
    | some (x, y) =>
      let p := sk_parse_training_data rest names
      (x :: p.1, y :: p.2)
    | none => sk_parse_training_data rest names

/-- Skip test of `opt_nevergrad.parse_training_data` (line 167):
`'objective' not in row or row['objective'] is None or
row['objective'] == ''` (equality with `''` only holds for the empty
string). -/
def ng_objective_missing (r : Rec) : Bool :=
  match recGet r "objective" with
  | none => true
  | some v => isNone v || v == PyVal.vStr ""

/-- `[float(row.get(name, 0)) for name in param_names]` (nevergrad/snobfit
variant): a missing name contributes `float(0)`. -/
def ng_collect_x : List String → Rec → Option (List NumVal)
  | [], _ => some []
  | nm :: rest, r =>
    match pyFloat ((recGet r nm).getD (.vInt 0)) with
    | some v => (ng_collect_x rest r).map (fun xs => v :: xs)
    | none => none

/-- One loop iteration of `opt_nevergrad.parse_training_data`. -/
def ng_row_out (names : List String) (r : Rec) : Option (List NumVal × NumVal) :=
  if ng_objective_missing r then none
  else
    match ng_collect_x names r, (recGet r "objective").bind pyFloat with
    | some xs, some y => some (xs, y)
    | _, _ => none

/-- `opt_nevergrad.parse_training_data` (lines 148-178). -/
def ng_parse_training_data : List Rec → List String → List (List NumVal) × List NumVal
  | [], _ => ([], [])
  | r :: rest, names =>
    match ng_row_out names r with
    | some (x, y) =>
      let p := ng_parse_training_data rest names
      (x :: p.1, y :: p.2)
    | none => ng_parse_training_data rest names

/-- `opt_snobfit.parse_training_data` (lines 182-222) is, apart from log
lines, textually identical to `opt_nevergrad.parse_training_data`. -/
def sb_row_out : List String → Rec → Option (List NumVal × NumVal) := ng_row_out

def sb_parse_training_data : List Rec → List String → List (List NumVal) × List NumVal :=
  ng_parse_training_data

/-! Spec-side acceptance predicates, written from the spec's words, used to
characterise the parsers. -/

/-- A record the skopt parser accepts: objective present, not `None`, not
whitespace-only, coercible to float, and every declared parameter present
and coercible. -/
def sk_row_accepted (names : List String) (r : Rec) : Bool :=
  !sk_objective_missing r
  && ((recGet r "objective").bind pyFloat).isSome
  && names.all (fun nm => ((recGet r nm).bind pyFloat).isSome)

def sk_x_vec (names : List String) (r : Rec) : List NumVal :=
  names.map (fun nm => ((recGet r nm).bind pyFloat).getD (.fin 0))

def sk_y_val (r : Rec) : NumVal :=
  ((recGet r "objective").bind pyFloat).getD (.fin 0)

/-- Spec-side predicate (the claim's words): the record carries a valid
finite objective. -/
def valid_finite_objective (r : Rec) : Bool :=
  match (recGet r "objective").bind pyFloat with
  | some (.fin _) => true
  | _ => false

theorem sk_collect_x_isSome_iff (names : List String) (r : Rec) :
    (sk_collect_x names r).isSome ↔
      ∀ nm ∈ names, ((recGet r nm).bind pyFloat).isSome := by
  induction names with
  | nil => simp [sk_collect_x]
  | cons nm rest ih =>
    simp only [sk_collect_x, List.mem_cons]
    cases h : (recGet r nm).bind pyFloat with
    | none =>
      simp only [Option.isSome_none, Bool.false_eq_true, false_iff]
      intro hall
      have := hall nm (Or.inl rfl)
      simp [h] at this
    | some v =>
      cases hc : sk_collect_x rest r with
      | none =>
        simp only [Option.map_none', Option.isSome_none, Bool.false_eq_true, false_iff]
        rw [hc] at ih
        simp only [Option.isSome_none, Bool.false_eq_true, false_iff] at ih
        push_neg at ih
        intro hall
        obtain ⟨nm', hm, hns⟩ := ih
        exact hns (hall nm' (Or.inr hm))
      | some xs =>
        simp only [Option.map_some', Option.isSome_some, true_iff]
        rw [hc] at ih
        simp only [Option.isSome_some, true_iff] at ih
        rintro nm' (rfl | hm)
        · simp [h]
        · exact ih nm' hm

theorem sk_collect_x_eq (names : List String) (r : Rec)
    (h : ∀ nm ∈ names, ((recGet r nm).bind pyFloat).isSome) :
    sk_collect_x names r = some (sk_x_vec names r) := by
  induction names with
  | nil => simp [sk_collect_x, sk_x_vec]
  | cons nm rest ih =>
    have h1 : ((recGet r nm).bind pyFloat).isSome := h nm (List.mem_cons_self nm rest)
    obtain ⟨v, hv⟩ := Option.isSome_iff_exists.mp h1
    have ih' := ih (fun nm' hm => h nm' (List.mem_cons_of_mem _ hm))
    simp [sk_collect_x, sk_x_vec, hv, ih']

theorem sk_row_out_eq_some (names : List String) (r : Rec)
    (h : sk_row_accepted names r = true) :
    sk_row_out names r = some (sk_x_vec names r, sk_y_val r) := by
  simp only [sk_row_accepted, Bool.and_eq_true, Bool.not_eq_true'] at h
  obtain ⟨⟨hskip, hobj⟩, hall⟩ := h
  obtain ⟨y, hy⟩ := Option.isSome_iff_exists.mp hobj
  have hx := sk_collect_x_eq names r (fun nm hm => List.all_eq_true.mp hall nm hm)
  simp [sk_row_out, hskip, hx, hy, sk_y_val]

theorem sk_row_out_eq_none (names : List String) (r : Rec)
    (h : sk_row_accepted names r = false) :
    sk_row_out names r = none := by
  rw [sk_row_out]
  by_cases hskip : sk_objective_missing r = true
  · simp [hskip]
  · rw [Bool.not_eq_true] at hskip
    simp only [hskip, Bool.false_eq_true, if_false]
    cases hc : sk_collect_x names r with
    | none => rfl
    | some xs =>
      cases ho : (recGet r "objective").bind pyFloat with
      | none => rfl
      | some y =>
        have hacc : sk_row_accepted names r = true := by
          have hall : ∀ nm ∈ names, ((recGet r nm).bind pyFloat).isSome :=
            (sk_collect_x_isSome_iff names r).mp (by simp [hc])
          simp only [sk_row_accepted, hskip, ho, List.all_eq_true, Bool.not_false,
            Option.isSome_some, Bool.true_and, Bool.and_self, Bool.and_eq_true]
          exact hall
        rw [hacc] at h
        cases h

/-- The skopt history parser is exactly: keep, in arrival order, one
`(x, y)` pair per record satisfying `sk_row_accepted`. -/
theorem sk_parse_training_data_eq (data : List Rec) (names : List String) :
    sk_parse_training_data data names =
      ((data.filter (sk_row_accepted names)).map (sk_x_vec names),
       (data.filter (sk_row_accepted names)).map sk_y_val) := by
  induction data with
  | nil => simp [sk_parse_training_data]
  | cons r rest ih =>
    cases ha : sk_row_accepted names r with
    | true =>
      simp [sk_parse_training_data, sk_row_out_eq_some names r ha,
        List.filter_cons, ha, ih]
    | false =>
      simp [sk_parse_training_data, sk_row_out_eq_none names r ha,
        List.filter_cons, ha, ih]

def ng_x_vec (names : List String) (r : Rec) : List NumVal :=
  names.map (fun nm => (pyFloat ((recGet r nm).getD (.vInt 0))).getD (.fin 0))

theorem ng_collect_x_eq (names : List String) (r : Rec)
    (h : ∀ nm ∈ names, (pyFloat ((recGet r nm).getD (.vInt 0))).isSome) :
    ng_collect_x names r = some (ng_x_vec names r) := by
  induction names with
  | nil => simp [ng_collect_x, ng_x_vec]
  | cons nm rest ih =>
    have h1 := h nm (List.mem_cons_self nm rest)
    obtain ⟨v, hv⟩ := Option.isSome_iff_exists.mp h1
    have ih' := ih (fun nm' hm => h nm' (List.mem_cons_of_mem _ hm))
    simp [ng_collect_x, ng_x_vec, hv, ih']

theorem ng_objective_missing_eq_false (r : Rec)
    (hobj : ((recGet r "objective").bind pyFloat).isSome) :
    ng_objective_missing r = false := by
  rw [ng_objective_missing]
  cases hg : recGet r "objective" with
  | none => rw [hg] at hobj; simp at hobj
  | some v =>
    rw [hg] at hobj
    cases v with
    | vNone => simp [pyFloat] at hobj
    | vStr s =>
      simp only [isNone, Bool.false_or]
      by_cases hs : s = ""
      · subst hs; revert hobj; decide
      · simp [hs]
    | vInt n => simp [isNone]
    | vNum x => simp [isNone]

theorem ng_row_out_eq_some (names : List String) (r : Rec) (y : NumVal)
    (hobj : (recGet r "objective").bind pyFloat = some y)
    (h : ∀ nm ∈ names, (pyFloat ((recGet r nm).getD (.vInt 0))).isSome) :
    ng_row_out names r = some (ng_x_vec names r, y) := by
  have hskip := ng_objective_missing_eq_false r (by simp [hobj])
  simp [ng_row_out, hskip, ng_collect_x_eq names r h, hobj]

def ng_rows (data : List Rec) (names : List String) : List (List NumVal × NumVal) :=
  data.filterMap (ng_row_out names)

theorem ng_parse_eq_rows (data : List Rec) (names : List String) :
    ng_parse_training_data data names =
      ((ng_rows data names).map Prod.fst, (ng_rows data names).map Prod.snd) := by
  induction data with
  | nil => simp [ng_parse_training_data, ng_rows]
  | cons r rest ih =>
    cases h : ng_row_out names r with
    | none => simp [ng_parse_training_data, ng_rows, List.filterMap_cons, h, ih]
    | some p =>
      cases p with
      | mk x y => simp [ng_parse_training_data, ng_rows, List.filterMap_cons, h, ih]

/-! ## Settings validation, dispatch and the Continue handler (`gsopt.py`)

`acq_optimizer` and `acq_func_kwargs` are opaque pass-through configuration
(never inspected by the orchestrator) and are omitted from the embedding. -/

/-- Raw settings payload; a field is `none` when the key is absent from the
request dict. -/
structure RawSettings where
  num_params : Option PyVal
  param_names : Option (List PyVal)
  param_mins : Option (List PyVal)
  param_maxes : Option (List PyVal)
  num_init_points : Option PyVal
  batch_size : Option PyVal
  base_estimator : Option String
  acquisition_function : Option String

/-- Error taxonomy of `validate_optimizer_settings`, one constructor per
`return False, ...` site; each constructor carries exactly the data that
the Python message interpolates (`boundsTooLarge`'s message
`'Parameter bounds too large (max ±1e10)'` carries no parameter name). -/
inductive SettingsError where
  | missingField (f : String)
  | badNumParams
  | namesLenMismatch
  | invalidName (v : PyVal)
  | boundsLenMismatch
  | boundsTooLarge
  | invalidBoundsOrder (n : String)
  | nonNumericBounds (n : String)
  | badInitPoints
  | badBatchSize
  | badEstimator
  | badAcqFunc
  deriving DecidableEq, Repr

/-- Does this validation error's message name the given parameter? -/
def mentionsParam : SettingsError → String → Bool
  | .invalidName (.vStr n), m => n == m
  | .invalidBoundsOrder n, m => n == m
  | .nonNumericBounds n, m => n == m
  | _, _ => false

/-- One character of the pattern `^[a-zA-Z0-9_\-\s]{1,50}$`. -/
def nameCharOk (c : Char) : Bool :=
  c.isAlphanum || c = '_' || c = '-' || isPyWS c

def nameOk (s : String) : Bool :=
  1 ≤ s.length && s.length ≤ 50 && s.toList.all nameCharOk

def pyIsStr : PyVal → Bool
  | .vStr _ => true
  | _ => false

def pyName : PyVal → String
  | .vStr s => s
  | _ => ""

def pyInt? : PyVal → Option ℤ
  | .vInt n => some n
  | _ => none

/-- The magnitude limit `1e10` (kept as a literal so it evaluates). -/
def bigBound : ℚ := 10000000000

/-- The per-dimension loop of `validate_optimizer_settings` (lines
239-251), run after the length checks guarantee `len(param_mins) ==
len(param_maxes) == len(param_names)`; names are consumed positionally for
error messages only. -/
def check_bounds : List String → List (PyVal × PyVal) → Except SettingsError Unit
  | _, [] => .ok ()
  | ns, (a, b) :: rest =>
    let nm := ns.headD ""
    match pyFloat a, pyFloat b with
    | some mv, some xv =>
      if pyGt (pyAbs mv) (.fin bigBound) || pyGt (pyAbs xv) (.fin bigBound) then
        .error .boundsTooLarge
      else if pyGe mv xv then .error (.invalidBoundsOrder nm)
      else check_bounds ns.tail rest
    | _, _ => .error (.nonNumericBounds nm)

/-- What one bounds pair must satisfy for the loop to move past it. -/
def boundsPairOk (p : PyVal × PyVal) : Bool :=
  match pyFloat p.1, pyFloat p.2 with
  | some mv, some xv =>
    !(pyGt (pyAbs mv) (.fin bigBound) || pyGt (pyAbs xv) (.fin bigBound)) && !(pyGe mv xv)
  | _, _ => false

/-- `base_estimator.split('-')[1]`: the piece between the first and second
hyphen (callers guard on `'-' in base_estimator`). -/
def estAfterSplit (s : String) : String :=
  let after := (s.toList.dropWhile (fun c => c ≠ '-')).drop 1
  String.mk (after.takeWhile (fun c => c ≠ '-'))

/-- The estimator token the whitelist check tests: the piece after the
first hyphen when one is present, the raw value otherwise (lines 264-268). -/
def est_resolved (d : RawSettings) : String :=
  let est0 := d.base_estimator.getD "GP"
  if est0.toList.contains '-' then estAfterSplit est0 else est0

/-- `gsopt.validate_optimizer_settings` (lines 204-276). -/
def validate_optimizer_settings (d : RawSettings) : Except SettingsError Unit :=
  match d.num_params with
  | none => .error (.missingField "num_params")
  | some npv =>
  match d.param_names with
  | none => .error (.missingField "param_names")
  | some names =>
  match d.param_mins with
  | none => .error (.missingField "param_mins")
  | some mins =>
  match d.param_maxes with
  | none => .error (.missingField "param_maxes")
  | some maxes =>
  match pyInt? npv with
  | none => .error .badNumParams
  | some np =>
  if np < 1 || np > 100 then .error .badNumParams
  else if (names.length : ℤ) ≠ np then .error .namesLenMismatch
  else match names.find? (fun v => !(pyIsStr v && nameOk (pyName v))) with
  | some v => .error (.invalidName v)
  | none =>
  if (mins.length : ℤ) ≠ np || (maxes.length : ℤ) ≠ np then .error .boundsLenMismatch
  else match check_bounds (names.map pyName) (mins.zip maxes) with
  | .error e => .error e
  | .ok _ =>
  match pyInt? (d.num_init_points.getD (.vInt 10)) with
  | none => .error .badInitPoints
  | some ipn =>
  if ipn < 1 || ipn > 1000 then .error .badInitPoints
  else match pyInt? (d.batch_size.getD (.vInt 5)) with
  | none => .error .badBatchSize
  | some bsn =>
  if bsn < 1 || bsn > 100 then .error .badBatchSize
  else
    if ["GP", "RF", "ET", "GBRT"].contains (est_resolved d) then
      if ["EI", "PI", "LCB", "gp_hedge"].contains (d.acquisition_function.getD "EI") then
        .ok ()
      else .error .badAcqFunc
    else .error .badEstimator

/-- `raise ValueError(f"Unknown or unsupported optimizer type: ...")`. -/
inductive BuildError where
  | unknownType (t : String)
  deriving DecidableEq, Repr

def splitOnceAux (acc : List Char) : List Char → Option (List Char × List Char)
  | [] => none
  | c :: cs => if c = '-' then some (acc.reverse, cs) else splitOnceAux (c :: acc) cs

/-- `optimizer_type.split('-', 1)` guarded by `'-' in optimizer_type`:
`none` when there is no hyphen. -/
def splitOnce (s : String) : Option (String × String) :=
  match splitOnceAux [] s.toList with
  | some (p, rest) => some (String.mk p, String.mk rest)
  | none => none

/-- `str.upper()` (ASCII), kept list-based so it evaluates. -/
def strUpper (s : String) : String := String.mk (s.toList.map Char.toUpper)

inductive Backend where
  | skopt (base_estimator : String)
  deriving DecidableEq, Repr

/-- Backend dispatch of `gsopt.build_optimizer` (lines 163-185): only a
case-insensitive `SKOPT` prefix before the first hyphen is recognised;
everything else, including any identifier without a hyphen, raises. -/
def dispatch_backend (optimizer_type : String) : Except BuildError Backend :=
  match splitOnce optimizer_type with
  | some (p, algo) =>
    if strUpper p = "SKOPT" then .ok (.skopt (strUpper algo))
    else .error (.unknownType optimizer_type)
  | none => .error (.unknownType optimizer_type)

/-- `OptimizerSettings.from_dict` defaults (lines 124-141). -/
structure OptimizerSettings where
  base_estimator : String
  acquisition_function : String
  num_params : ℤ
  param_names : List String
  param_mins : List PyVal
  param_maxes : List PyVal
  num_init_points : ℤ
  batch_size : ℤ

def pyIntD (v : Option PyVal) (dflt : ℤ) : ℤ :=
  match v with
  | some (.vInt n) => n
  | _ => dflt

def OptimizerSettings.from_dict (d : RawSettings) : OptimizerSettings :=
  { base_estimator := d.base_estimator.getD "GP"
    acquisition_function := d.acquisition_function.getD "EI"
    num_params := pyIntD d.num_params 0
    param_names := (d.param_names.getD []).map pyName
    param_mins := d.param_mins.getD []
    param_maxes := d.param_maxes.getD []
    num_init_points := pyIntD d.num_init_points 10
    batch_size := pyIntD d.batch_size 5 }

/-- Error taxonomy of `validate_existing_data` (lines 278-316; the region
is partially garbled in the source, so constructors follow the legible
`return False, ...` fragments). -/
inductive DataError where
  | tooManyPoints
  | missingParam (i : ℕ) (n : String)
  | nonNumericValue (i : ℕ) (n : String)
  | invalidObjective (i : ℕ)
  deriving DecidableEq, Repr

/-- Per-record body of `validate_existing_data`: every declared parameter
present with a finite numeric value; an objective, when present and not
`''`/`None`, must coerce to a finite float. -/
def record_check (names : List String) (i : ℕ) (r : Rec) : Except DataError Unit :=
  match names.find? (fun nm => (recGet r nm).isNone) with
  | some nm => .error (.missingParam i nm)
  | none =>
    match names.find? (fun nm =>
        match (recGet r nm).bind pyFloat with
        | some (.fin _) => false
        | _ => true) with
    | some nm => .error (.nonNumericValue i nm)
    | none =>
      match recGet r "objective" with
      | none => .ok ()
      | some v =>
        if isNone v || v == PyVal.vStr "" then .ok ()
        else match pyFloat v with
          | some (.fin _) => .ok ()
          | _ => .error (.invalidObjective i)

def check_records (names : List String) : ℕ → List Rec → Except DataError Unit
  | _, [] => .ok ()
  | i, r :: rest =>
    match record_check names i r with
    | .error e => .error e
    | .ok _ => check_records names (i + 1) rest

def validate_existing_data (data : List Rec) (names : List String) : Except DataError Unit :=
  if data.length > 10000 then .error .tooManyPoints
  else check_records names 0 data

/-- Opaque scikit-optimize engine: from the data it has been told and a
requested batch size to proposed points.  The library is an external
collaborator; its behaviour enters theorems only through explicit
hypotheses. -/
abbrev SkoptEngine := List (List NumVal × NumVal) → ℕ → List (List ℚ)

/-- `SkoptBayesianOptimizer` holds only what it has told the engine. -/
structure SkoptState where
  told : List (List NumVal × NumVal)

/-- `SkoptBayesianOptimizer.tell` (lines 98-113): no-op on empty input,
otherwise forwards the batch to the engine. -/
def SkoptState.tell (s : SkoptState) (x : List (List NumVal)) (y : List NumVal) : SkoptState :=
  if x.isEmpty || y.isEmpty then s
  else { told := s.told ++ x.zip y }

/-- `SkoptBayesianOptimizer.ask` (lines 84-96): returns
`self.optimizer.ask(n_points=n_points)` unchanged — no padding, no
truncation, no bounds filtering. -/
def skopt_ask (eng : SkoptEngine) (s : SkoptState) (n_points : ℕ) : List (List ℚ) :=
  eng s.told n_points

/-- `skopt_bayes.build_optimizer` (lines 166-202): fresh wrapper, then one
`tell` with the parsed data when `existing_data` is non-empty and parsing
kept at least one point. -/
def build_skopt_optimizer (data : List Rec) (names : List String) : SkoptState :=
  let s : SkoptState := ⟨[]⟩
  if data.isEmpty then s
  else
    let p := sk_parse_training_data data names
    if p.1.isEmpty then s else s.tell p.1 p.2

inductive HandlerError where
  | settingsErr (e : SettingsError)
  | dataErr (e : DataError)
  | buildErr (e : BuildError)
  deriving DecidableEq, Repr

/-- Result of the `/continue-optimization` body, instrumented with the
number of optimizer engines constructed during the call. -/
structure HandlerOut where
  resp : Except HandlerError (List Rec)
  engines : ℕ

/-- `gsopt.format_points_response` (lines 187-202). -/
def format_points_response (points : List (List ℚ)) (names : List String) : List Rec :=
  points.map (fun point =>
    (names.zip point).map (fun p => (p.1, PyVal.vNum (.fin p.2)))
      ++ [("objective", PyVal.vStr "")])

/-- The `/continue-optimization` request body: validate settings, validate
history, dispatch the backend, build/train it, ask for `batch_size`
points, format.  Transport, authentication and logging are external. -/
def continue_handler (raw : RawSettings) (data : List Rec) (eng : SkoptEngine) : HandlerOut :=
  match validate_optimizer_settings raw with
  | .error e => ⟨.error (.settingsErr e), 0⟩
  | .ok _ =>
    let s := OptimizerSettings.from_dict raw
    match validate_existing_data data s.param_names with
    | .error e => ⟨.error (.dataErr e), 0⟩
    | .ok _ =>
      match dispatch_backend s.base_estimator with
      | .error e => ⟨.error (.buildErr e), 0⟩
      | .ok _ =>
        let opt := build_skopt_optimizer data s.param_names
        let points := skopt_ask eng opt s.batch_size.toNat
        ⟨.ok (format_points_response points s.param_names), 1⟩

/-! ## SNOBFIT adapter (`opt_snobfit.py`)

`np.random.uniform` is modelled by an explicit stream `u : ℕ → ℚ` of
unit-interval samples; a draw over `[lo, hi]` is `lo + (hi - lo) * u i`. -/

def uniformDraw (lo hi u : ℚ) : ℚ := lo + (hi - lo) * u

/-- One random point `np.random.uniform(bounds[:,0], bounds[:,1])`,
consuming one stream sample per dimension starting at `off`. -/
def uniformPoint (mins maxes : List ℚ) (u : ℕ → ℚ) (off : ℕ) : List ℚ :=
  (List.range mins.length).map
    (fun d => uniformDraw (mins.getD d 0) (maxes.getD d 0) (u (off + d)))

/-- `np.sqrt(np.finfo(float).eps)` is exactly `2 ^ (-26)` for binary64. -/
def sqrtEps : ℚ := 1 / 67108864

/-- Opaque SQSnobFit engine: from the evaluated points, the
`(value, uncertainty)` rows and the config's `nreq`, to the returned
request-matrix rows (each row is `[x, f_est, type]`; the adapter keeps the
first `n_dims` columns). -/
abbrev SnobOracle := List (List NumVal) → List (NumVal × ℚ) → ℕ → List (List ℚ)

structure SnobState where
  param_names : List String
  param_mins : List ℚ
  param_maxes : List ℚ
  x_data : List (List NumVal)
  y_data : List NumVal
  iteration : ℕ

def SnobState.n_dims (s : SnobState) : ℕ := s.param_names.length

/-- `SnobfitOptimizer.ask` (lines 56-148): with no evaluated data, `n_points`
uniform random points; otherwise call the engine with the stored data plus
the `sqrt(eps)` uncertainty column, keep the first `n_dims` columns, pad
with uniform random points when the engine returned fewer than `n_points`
rows, and truncate when it returned more. -/
def snobfit_ask (s : SnobState) (oracle : SnobOracle) (u : ℕ → ℚ) (n_points : ℕ) :
    List (List ℚ) × SnobState :=
  if s.x_data.length = 0 then
    let points := (List.range n_points).map
      (fun i => uniformPoint s.param_mins s.param_maxes u (i * s.n_dims))
    (points, { s with iteration := s.iteration + 1 })
  else
    let y_rows := s.y_data.map (fun v => (v, sqrtEps))
    let request := oracle s.x_data y_rows n_points
    let suggested := request.map (fun row => row.take s.n_dims)
    let padded :=
      if suggested.length < n_points then
        suggested ++ (List.range (n_points - suggested.length)).map
          (fun i => uniformPoint s.param_mins s.param_maxes u (i * s.n_dims))
      else suggested
    let final := if n_points < padded.length then padded.take n_points else padded
    (final, { s with iteration := s.iteration + 1 })

/-- `SnobfitOptimizer.tell` (lines 150-175): no-op on empty input, else
append to the stored arrays. -/
def snobfit_tell (s : SnobState) (x : List (List NumVal)) (y : List NumVal) : SnobState :=
  if x.isEmpty || y.isEmpty then s
  else { s with x_data := s.x_data ++ x, y_data := s.y_data ++ y }

/-- `opt_snobfit.build_optimizer` (lines 225-255). -/
def build_snobfit_optimizer (names : List String) (mins maxes : List ℚ)
    (data : List Rec) : SnobState :=
  let s : SnobState := ⟨names, mins, maxes, [], [], 0⟩
  if data.isEmpty then s
  else
    let p := sb_parse_training_data data names
    if p.1.isEmpty then s else snobfit_tell s p.1 p.2

/-! ## Nevergrad adapter (`opt_nevergrad.py`) -/

/-- Opaque Nevergrad engine state: the `(x, y)` pairs it has been told (its
`num_tell`) and how many `ask` calls it has served (internal counters that
mutate on every `ask`). -/
structure NGEngine where
  told : List (List NumVal × NumVal)
  askCount : ℕ

/-- `NevergradOptimizer._create_optimizer` (lines 60-67): a fresh engine. -/
def ng_create_optimizer : NGEngine := ⟨[], 0⟩

/-- `self.optimizer.tell(candidate, y)` on the engine. -/
def NGEngine.tellOne (e : NGEngine) (x : List NumVal) (y : NumVal) : NGEngine :=
  { e with told := e.told ++ [(x, y)] }

/-- Opaque ask behaviour of the engine: a candidate as a function of the
engine's told history and its ask counter. -/
abbrev NGOracle := List (List NumVal × NumVal) → ℕ → List ℚ

structure NGState where
  x_history : List (List NumVal)
  y_history : List NumVal
  engine : NGEngine

def ng_init : NGState := ⟨[], [], ng_create_optimizer⟩

/-- `NevergradOptimizer._replay_history` (lines 69-89): early return when
the stored history is empty; otherwise construct a fresh engine and tell it
every historical pair in original order. -/
def ng_replay_history (s : NGState) : NGState :=
  if s.x_history.isEmpty then s
  else
    { s with
      engine := (s.x_history.zip s.y_history).foldl
        (fun e p => e.tellOne p.1 p.2) ng_create_optimizer }

structure NGAskResult where
  points : List (List ℚ)
  state : NGState
  /-- whether this `ask` call constructed a fresh engine instance -/
  reconstructed : Bool

/-- `NevergradOptimizer.ask` (lines 91-118): replay, then ask the engine
one point at a time, `n_points` times. -/
def nevergrad_ask (s : NGState) (oracle : NGOracle) (n_points : ℕ) : NGAskResult :=
  let s1 := ng_replay_history s
  { points := (List.range n_points).map
      (fun i => oracle s1.engine.told (s1.engine.askCount + i))
    state := { s1 with engine := { s1.engine with askCount := s1.engine.askCount + n_points } }
    reconstructed := !s.x_history.isEmpty }

/-- `NevergradOptimizer.tell` (lines 120-141): store in history only; the
engine is untouched. -/
def nevergrad_tell (s : NGState) (x : List (List NumVal)) (y : List NumVal) : NGState :=
  if x.isEmpty || y.isEmpty then s
  else { s with x_history := s.x_history ++ x, y_history := s.y_history ++ y }

/-- `opt_nevergrad.build_optimizer` (lines 181-221); the engine name
mapping feeds the opaque engine registry and is not modelled. -/
def build_nevergrad_optimizer (data : List Rec) (names : List String) : NGState :=
  let s := ng_init
  if data.isEmpty then s
  else
    let p := ng_parse_training_data data names
    if p.1.isEmpty then s else nevergrad_tell s p.1 p.2

/-- Build-and-ask pipeline on the Nevergrad backend (what one `Continue`
request runs once dispatch reaches this adapter). -/
def nevergrad_continue (data : List Rec) (names : List String) (oracle : NGOracle)
    (n : ℕ) : List (List ℚ) :=
  (nevergrad_ask (build_nevergrad_optimizer data names) oracle n).points

/-- Build-and-ask pipeline on the SNOBFIT backend. -/
def snobfit_continue (data : List Rec) (names : List String) (mins maxes : List ℚ)
    (oracle : SnobOracle) (u : ℕ → ℚ) (n : ℕ) : List (List ℚ) :=
  (snobfit_ask (build_snobfit_optimizer names mins maxes data) oracle u n).1

/-- Point `p` lies within the per-dimension bounds on every coordinate it
has. -/
def inBounds (mins maxes : List ℚ) (p : List ℚ) : Prop :=
  ∀ d < p.length, mins.getD d 0 ≤ p.getD d 0 ∧ p.getD d 0 ≤ maxes.getD d 0

theorem uniformPoint_length (mins maxes : List ℚ) (u : ℕ → ℚ) (off : ℕ) :
    (uniformPoint mins maxes u off).length = mins.length := by
  simp [uniformPoint]

theorem uniformDraw_mem (lo hi x : ℚ) (hlh : lo ≤ hi) (h0 : 0 ≤ x) (h1 : x ≤ 1) :
    lo ≤ uniformDraw lo hi x ∧ uniformDraw lo hi x ≤ hi := by
  unfold uniformDraw
  constructor
  · nlinarith
  · nlinarith

theorem uniformPoint_inBounds (mins maxes : List ℚ) (u : ℕ → ℚ) (off : ℕ)
    (hb : ∀ d < mins.length, mins.getD d 0 ≤ maxes.getD d 0)
    (hu : ∀ i, 0 ≤ u i ∧ u i ≤ 1) :
    inBounds mins maxes (uniformPoint mins maxes u off) := by
  intro d hd
  rw [uniformPoint_length] at hd
  have hget : (uniformPoint mins maxes u off).getD d 0 =
      uniformDraw (mins.getD d 0) (maxes.getD d 0) (u (off + d)) := by
    simp [uniformPoint, List.getD_eq_getElem?_getD, List.getElem?_map, List.getElem?_range, hd]
  rw [hget]
  exact uniformDraw_mem _ _ _ (hb d hd) (hu (off + d)).1 (hu (off + d)).2

/-! ## Characterising `validate_optimizer_settings` -/

theorem check_bounds_ok_iff (ps : List (PyVal × PyVal)) :
    ∀ ns : List String, check_bounds ns ps = .ok () ↔ ∀ p ∈ ps, boundsPairOk p := by
  induction ps with
  | nil => intro ns; simp [check_bounds]
  | cons p t ih =>
    intro ns
    obtain ⟨a, b⟩ := p
    rw [check_bounds]
    cases hfa : pyFloat a with
    | none => simp [boundsPairOk, hfa]
    | some mv =>
      cases hfb : pyFloat b with
      | none => simp [boundsPairOk, hfa, hfb]
      | some xv =>
        dsimp only
        by_cases hbig :
            (pyGt (pyAbs mv) (.fin bigBound) || pyGt (pyAbs xv) (.fin bigBound)) = true
        · rw [if_pos hbig]
          apply iff_of_false
          · simp
          · intro hall
            have hpo := hall (a, b) (List.mem_cons_self _ _)
            simp only [boundsPairOk, hfa, hfb, Bool.and_eq_true, Bool.not_eq_true'] at hpo
            rw [hpo.1] at hbig
            cases hbig
        · rw [Bool.not_eq_true] at hbig
          rw [if_neg (by simp [hbig])]
          by_cases hord : pyGe mv xv = true
          · rw [if_pos hord]
            apply iff_of_false
            · simp
            · intro hall
              have hpo := hall (a, b) (List.mem_cons_self _ _)
              simp only [boundsPairOk, hfa, hfb, Bool.and_eq_true, Bool.not_eq_true'] at hpo
              rw [hpo.2] at hord
              cases hord
          · rw [Bool.not_eq_true] at hord
            rw [if_neg (by simp [hord])]
            rw [ih ns.tail]
            constructor
            · intro hall p hp
              rcases List.mem_cons.mp hp with rfl | hmem
              · simp [boundsPairOk, hfa, hfb, hbig, hord]
              · exact hall p hmem
            · intro hall p hp
              exact hall p (List.mem_cons_of_mem _ hp)

/-- The data `validate_optimizer_settings` has established when it returns
success (forward direction of the check chain). -/
theorem validate_ok_components (d : RawSettings)
    (hok : validate_optimizer_settings d = .ok ()) :
    ∃ npv names mins maxes np,
      d.num_params = some npv ∧ d.param_names = some names ∧
      d.param_mins = some mins ∧ d.param_maxes = some maxes ∧
      pyInt? npv = some np ∧ 1 ≤ np ∧ np ≤ 100 ∧
      (names.length : ℤ) = np ∧
      names.find? (fun v => !(pyIsStr v && nameOk (pyName v))) = none ∧
      (mins.length : ℤ) = np ∧ (maxes.length : ℤ) = np ∧
      (∀ p ∈ mins.zip maxes, boundsPairOk p) ∧
      (∃ k, pyInt? (d.num_init_points.getD (.vInt 10)) = some k ∧ 1 ≤ k ∧ k ≤ 1000) ∧
      (∃ k, pyInt? (d.batch_size.getD (.vInt 5)) = some k ∧ 1 ≤ k ∧ k ≤ 100) ∧
      ["GP", "RF", "ET", "GBRT"].contains (est_resolved d) = true ∧
      ["EI", "PI", "LCB", "gp_hedge"].contains (d.acquisition_function.getD "EI") = true := by
  unfold validate_optimizer_settings at hok
  cases hnp : d.num_params with
  | none => rw [hnp] at hok; cases hok
  | some npv =>
  rw [hnp] at hok; dsimp only at hok
  cases hnames : d.param_names with
  | none => rw [hnames] at hok; cases hok
  | some names =>
  rw [hnames] at hok; dsimp only at hok
  cases hmins : d.param_mins with
  | none => rw [hmins] at hok; cases hok
  | some mins =>
  rw [hmins] at hok; dsimp only at hok
  cases hmaxes : d.param_maxes with
  | none => rw [hmaxes] at hok; cases hok
  | some maxes =>
  rw [hmaxes] at hok; dsimp only at hok
  cases hpi : pyInt? npv with
  | none => rw [hpi] at hok; cases hok
  | some np =>
  rw [hpi] at hok; dsimp only at hok
  refine ⟨npv, names, mins, maxes, np, rfl, rfl, rfl, rfl, hpi, ?_⟩
  by_cases hr : (decide (np < 1) || decide (np > 100)) = true
  · rw [if_pos hr] at hok; cases hok
  rw [if_neg (by exact fun h => hr h)] at hok
  simp only [Bool.or_eq_true, decide_eq_true_eq, not_or, not_lt] at hr
  refine ⟨hr.1, hr.2, ?_⟩
  by_cases hlen : (names.length : ℤ) ≠ np
  · rw [if_pos (by exact_mod_cast hlen)] at hok; cases hok
  push_neg at hlen
  rw [if_neg (by simpa using hlen)] at hok
  refine ⟨hlen, ?_⟩
  cases hfind : names.find? (fun v => !(pyIsStr v && nameOk (pyName v))) with
  | some v => rw [hfind] at hok; cases hok
  | none =>
  rw [hfind] at hok; dsimp only at hok
  refine ⟨rfl, ?_⟩
  by_cases hblen : ((mins.length : ℤ) ≠ np ∨ (maxes.length : ℤ) ≠ np)
  · rw [if_pos (by simpa using hblen)] at hok; cases hok
  push_neg at hblen
  rw [if_neg (by simpa using hblen)] at hok
  refine ⟨hblen.1, hblen.2, ?_⟩
  cases hcb : check_bounds (names.map pyName) (mins.zip maxes) with
  | error e => rw [hcb] at hok; cases hok
  | ok u =>
  rw [hcb] at hok; dsimp only at hok
  have hpairs : ∀ p ∈ mins.zip maxes, boundsPairOk p := by
    have := (check_bounds_ok_iff (mins.zip maxes) (names.map pyName)).mp
    cases u
    exact this hcb
  refine ⟨hpairs, ?_⟩
  cases hip : pyInt? (d.num_init_points.getD (.vInt 10)) with
  | none => rw [hip] at hok; cases hok
  | some ipn =>
  rw [hip] at hok; dsimp only at hok
  by_cases hir : (decide (ipn < 1) || decide (ipn > 1000)) = true
  · rw [if_pos hir] at hok; cases hok
  rw [if_neg (by exact fun h => hir h)] at hok
  simp only [Bool.or_eq_true, decide_eq_true_eq, not_or, not_lt] at hir
  refine ⟨⟨ipn, rfl, hir.1, hir.2⟩, ?_⟩
  cases hbs : pyInt? (d.batch_size.getD (.vInt 5)) with
  | none => rw [hbs] at hok; cases hok
  | some bsn =>
  rw [hbs] at hok; dsimp only at hok
  by_cases hbr : (decide (bsn < 1) || decide (bsn > 100)) = true
  · rw [if_pos hbr] at hok; cases hok
  rw [if_neg (by exact fun h => hbr h)] at hok
  simp only [Bool.or_eq_true, decide_eq_true_eq, not_or, not_lt] at hbr
  refine ⟨⟨bsn, rfl, hbr.1, hbr.2⟩, ?_⟩
  by_cases hest : ["GP", "RF", "ET", "GBRT"].contains (est_resolved d) = true
  · rw [if_pos hest] at hok
    by_cases hacq :
        ["EI", "PI", "LCB", "gp_hedge"].contains (d.acquisition_function.getD "EI") = true
    · exact ⟨hest, hacq⟩
    · rw [Bool.not_eq_true] at hacq
      rw [if_neg (by rw [hacq]; exact Bool.false_ne_true)] at hok
      cases hok
  · rw [Bool.not_eq_true] at hest
    rw [if_neg (by rw [hest]; exact Bool.false_ne_true)] at hok
    cases hok

/-- Converse construction: these facts make `validate_optimizer_settings`
succeed. -/
theorem validate_ok_build (d : RawSettings) (npv : PyVal)
    (names mins maxes : List PyVal) (np : ℤ)
    (hnp : d.num_params = some npv) (hnames : d.param_names = some names)
    (hmins : d.param_mins = some mins) (hmaxes : d.param_maxes = some maxes)
    (hpi : pyInt? npv = some np) (h1 : 1 ≤ np) (h2 : np ≤ 100)
    (hlen : (names.length : ℤ) = np)
    (hname : ∀ v ∈ names, (pyIsStr v && nameOk (pyName v)) = true)
    (hminl : (mins.length : ℤ) = np) (hmaxl : (maxes.length : ℤ) = np)
    (hpairs : ∀ p ∈ mins.zip maxes, boundsPairOk p)
    (hip : ∃ k, pyInt? (d.num_init_points.getD (.vInt 10)) = some k ∧ 1 ≤ k ∧ k ≤ 1000)
    (hbs : ∃ k, pyInt? (d.batch_size.getD (.vInt 5)) = some k ∧ 1 ≤ k ∧ k ≤ 100)
    (hest : ["GP", "RF", "ET", "GBRT"].contains (est_resolved d) = true)
    (hacq : ["EI", "PI", "LCB", "gp_hedge"].contains
      (d.acquisition_function.getD "EI") = true) :
    validate_optimizer_settings d = .ok () := by
  obtain ⟨ipn, hipn, hi1, hi2⟩ := hip
  obtain ⟨bsn, hbsn, hb1, hb2⟩ := hbs
  unfold validate_optimizer_settings
  rw [hnp]; dsimp only
  rw [hnames]; dsimp only
  rw [hmins]; dsimp only
  rw [hmaxes]; dsimp only
  rw [hpi]; dsimp only
  rw [if_neg (by simp only [Bool.or_eq_true, decide_eq_true_eq]; omega)]
  rw [if_neg (by simp [hlen])]
  have hfind : names.find? (fun v => !(pyIsStr v && nameOk (pyName v))) = none := by
    rw [List.find?_eq_none]
    intro v hv
    simp [hname v hv]
  rw [hfind]; dsimp only
  rw [if_neg (by simp [hminl, hmaxl])]
  rw [(check_bounds_ok_iff (mins.zip maxes) (names.map pyName)).mpr hpairs]
  dsimp only
  rw [hipn]; dsimp only
  rw [if_neg (by simp only [Bool.or_eq_true, decide_eq_true_eq]; omega)]
  rw [hbsn]; dsimp only
  rw [if_neg (by simp only [Bool.or_eq_true, decide_eq_true_eq]; omega)]
  rw [if_pos hest, if_pos hacq]


def dupNamesPayload : RawSettings :=
  { num_params := some (.vInt 2)
    param_names := some [.vStr "x", .vStr "x"]
    param_mins := some [.vNum (.fin 0), .vNum (.fin 0)]
    param_maxes := some [.vNum (.fin 1), .vNum (.fin 1)]
    num_init_points := none
    batch_size := none
    base_estimator := some "SKOPT-GP"
    acquisition_function := none }

example : validate_optimizer_settings dupNamesPayload = .ok () := by rfl

def overflowBoundsPayload : RawSettings :=
  { num_params := some (.vInt 1)
    param_names := some [.vStr "a"]
    param_mins := some [.vNum (.fin 20000000000)]
    param_maxes := some [.vNum (.fin 10000000000)]
    num_init_points := none
    batch_size := none
    base_estimator := some "SKOPT-GP"
    acquisition_function := none }

example : validate_optimizer_settings overflowBoundsPayload = .error .boundsTooLarge := by rfl

def zeroWidthBoundsPayload : RawSettings :=
  { overflowBoundsPayload with param_mins := some [.vNum (.fin 0)], param_maxes := some [.vNum (.fin 0)] }

example : validate_optimizer_settings zeroWidthBoundsPayload = .error (.invalidBoundsOrder "a") := by rfl

example : dispatch_backend "RANDOM" = .error (.unknownType "RANDOM") := by rfl
example : dispatch_backend "GP" = .error (.unknownType "GP") := by rfl
example : dispatch_backend "skopt-gp" = .ok (.skopt "GP") := by rfl
example : dispatch_backend "NEVERGRAD-OnePlusOne" = .error (.unknownType "NEVERGRAD-OnePlusOne") := by rfl


/-! ## Adapter batch-size and bounds lemmas -/

theorem snobfit_ask_length (s : SnobState) (oracle : SnobOracle) (u : ℕ → ℚ) (n : ℕ) :
    (snobfit_ask s oracle u n).1.length = n := by
  unfold snobfit_ask
  by_cases hx : s.x_data.length = 0
  · rw [if_pos hx]; simp
  · rw [if_neg hx]
    dsimp only
    set sg := (oracle s.x_data (s.y_data.map fun v => (v, sqrtEps)) n).map
      (fun row => row.take s.n_dims) with hsg
    set pad := (List.range (n - sg.length)).map
      (fun i => uniformPoint s.param_mins s.param_maxes u (i * s.n_dims)) with hpad
    by_cases h1 : sg.length < n
    · rw [if_pos h1]
      have hlen : (sg ++ pad).length = n := by
        rw [hpad]; simp; omega
      rw [if_neg (by rw [hlen]; omega)]
      exact hlen
    · rw [if_neg h1]
      by_cases h2 : n < sg.length
      · rw [if_pos h2]; simp [List.length_take]; omega
      · rw [if_neg h2]; omega

theorem snobfit_ask_inBounds (s : SnobState) (oracle : SnobOracle) (u : ℕ → ℚ) (n : ℕ)
    (hb : ∀ d < s.param_mins.length, s.param_mins.getD d 0 ≤ s.param_maxes.getD d 0)
    (hu : ∀ i, 0 ≤ u i ∧ u i ≤ 1)
    (hreq : ∀ row ∈ oracle s.x_data (s.y_data.map (fun v => (v, sqrtEps))) n,
        inBounds s.param_mins s.param_maxes (row.take s.n_dims)) :
    ∀ p ∈ (snobfit_ask s oracle u n).1, inBounds s.param_mins s.param_maxes p := by
  intro p hp
  unfold snobfit_ask at hp
  by_cases hx : s.x_data.length = 0
  · rw [if_pos hx] at hp
    simp only [List.mem_map, List.mem_range] at hp
    obtain ⟨i, _, rfl⟩ := hp
    exact uniformPoint_inBounds _ _ _ _ hb hu
  · rw [if_neg hx] at hp
    dsimp only at hp
    set sg := (oracle s.x_data (s.y_data.map fun v => (v, sqrtEps)) n).map
      (fun row => row.take s.n_dims) with hsg
    set pad := (List.range (n - sg.length)).map
      (fun i => uniformPoint s.param_mins s.param_maxes u (i * s.n_dims)) with hpad
    have hmem_padded : p ∈ (if sg.length < n then sg ++ pad else sg) := by
      by_cases h2 : n < (if sg.length < n then sg ++ pad else sg).length
      · rw [if_pos h2] at hp; exact List.mem_of_mem_take hp
      · rw [if_neg h2] at hp; exact hp
    have hor : p ∈ sg ∨ p ∈ pad := by
      by_cases h1 : sg.length < n
      · rw [if_pos h1] at hmem_padded; exact List.mem_append.mp hmem_padded
      · rw [if_neg h1] at hmem_padded; exact Or.inl hmem_padded
    rcases hor with hsgm | hpadm
    · rw [hsg] at hsgm
      simp only [List.mem_map] at hsgm
      obtain ⟨row, hrow, rfl⟩ := hsgm
      exact hreq row hrow
    · rw [hpad] at hpadm
      simp only [List.mem_map, List.mem_range] at hpadm
      obtain ⟨i, _, rfl⟩ := hpadm
      exact uniformPoint_inBounds _ _ _ _ hb hu

theorem nevergrad_ask_length (s : NGState) (oracle : NGOracle) (n : ℕ) :
    (nevergrad_ask s oracle n).points.length = n := by
  simp [nevergrad_ask]

/-! ## Claim theorems -/

/-- C1 (corrected).  Batch-size normalization is not uniform across the
adapters: the SNOBFIT adapter always returns exactly `n` points (padding
with uniform random in-bounds samples when the engine under-produces,
truncating when it over-produces, and staying within bounds whenever the
engine's own proposals are within bounds); the Nevergrad adapter returns
exactly `n` because it asks the engine one point at a time; but the
scikit-optimize adapter performs no padding, truncation or bounds
filtering — it returns the engine's output unchanged, so it returns `n`
points only when the engine itself does. -/
theorem c1_ask_batch_normalization :
    (∀ (s : SnobState) (oracle : SnobOracle) (u : ℕ → ℚ) (n : ℕ),
        (snobfit_ask s oracle u n).1.length = n) ∧
    (∀ (s : SnobState) (oracle : SnobOracle) (u : ℕ → ℚ) (n : ℕ),
        (∀ d < s.param_mins.length, s.param_mins.getD d 0 ≤ s.param_maxes.getD d 0) →
        (∀ i, 0 ≤ u i ∧ u i ≤ 1) →
        (∀ row ∈ oracle s.x_data (s.y_data.map (fun v => (v, sqrtEps))) n,
            inBounds s.param_mins s.param_maxes (row.take s.n_dims)) →
        ∀ p ∈ (snobfit_ask s oracle u n).1, inBounds s.param_mins s.param_maxes p) ∧
    (∀ (s : NGState) (oracle : NGOracle) (n : ℕ),
        (nevergrad_ask s oracle n).points.length = n) ∧
    (∀ (eng : SkoptEngine) (st : SkoptState) (n : ℕ),
        skopt_ask eng st n = eng st.told n) :=
  ⟨snobfit_ask_length, snobfit_ask_inBounds, nevergrad_ask_length,
   fun _ _ _ => rfl⟩

/-- C1 counterexample: the scikit-optimize adapter, asked for 1 point with
an engine that returns none, returns 0 points — `ask` does not pad, so the
claim that every adapter returns exactly `n` points (padding when the
engine returns fewer) is false on the code. -/
theorem c1_cex_skopt_no_padding :
    (skopt_ask (fun _ _ => []) ⟨[]⟩ 1).length = 0 ∧ (0 : ℕ) ≠ 1 := by
  exact ⟨rfl, by decide⟩

/-- C9 (confirmed).  With zero stored training data the SNOBFIT adapter's
`ask` returns `n` uniformly random points, each within the bounds, and
never consults the partition-fit engine: its result does not depend on the
engine oracle at all. -/
theorem c9_snobfit_untrained_random (s : SnobState) (oracle : SnobOracle)
    (u : ℕ → ℚ) (n : ℕ) (hempty : s.x_data = [])
    (hb : ∀ d < s.param_mins.length, s.param_mins.getD d 0 ≤ s.param_maxes.getD d 0)
    (hu : ∀ i, 0 ≤ u i ∧ u i ≤ 1) :
    (snobfit_ask s oracle u n).1.length = n ∧
    (∀ p ∈ (snobfit_ask s oracle u n).1, inBounds s.param_mins s.param_maxes p) ∧
    (∀ oracle2 : SnobOracle, snobfit_ask s oracle u n = snobfit_ask s oracle2 u n) := by
  have hx : s.x_data.length = 0 := by rw [hempty]; rfl
  refine ⟨snobfit_ask_length s oracle u n, ?_, ?_⟩
  · intro p hp
    unfold snobfit_ask at hp
    rw [if_pos hx] at hp
    simp only [List.mem_map, List.mem_range] at hp
    obtain ⟨i, _, rfl⟩ := hp
    exact uniformPoint_inBounds _ _ _ _ hb hu
  · intro oracle2
    unfold snobfit_ask
    rw [if_pos hx, if_pos hx]

/-- C9 witness: a 1-dimensional space over `[0, 1]`, an untrained adapter,
two requested points. -/
theorem c9_witness :
    (snobfit_ask ⟨["x"], [0], [1], [], [], 0⟩ (fun _ _ _ => []) (fun _ => 0) 2).1.length = 2 ∧
    (∀ p ∈ (snobfit_ask ⟨["x"], [0], [1], [], [], 0⟩ (fun _ _ _ => []) (fun _ => 0) 2).1,
        inBounds [0] [1] p) ∧
    (∀ oracle2 : SnobOracle,
        snobfit_ask ⟨["x"], [0], [1], [], [], 0⟩ (fun _ _ _ => []) (fun _ => 0) 2 =
        snobfit_ask ⟨["x"], [0], [1], [], [], 0⟩ oracle2 (fun _ => 0) 2) :=
  c9_snobfit_untrained_random ⟨["x"], [0], [1], [], [], 0⟩ (fun _ _ _ => []) (fun _ => 0) 2
    rfl
    (by intro d hd
        have hd0 : d = 0 := by simpa using hd
        subst hd0
        decide)
    (fun i => ⟨le_refl 0, by show (0 : ℚ) ≤ 1; decide⟩)


/-! ## Nevergrad replay lemmas -/

theorem nevergrad_tell_engine (s : NGState) (x : List (List NumVal)) (y : List NumVal) :
    (nevergrad_tell s x y).engine = s.engine := by
  unfold nevergrad_tell; split <;> rfl

/-- Any sequence of `tell` batches applied to a freshly built adapter. -/
def ng_run_tells (batches : List (List (List NumVal) × List NumVal)) : NGState :=
  batches.foldl (fun s b => nevergrad_tell s b.1 b.2) ng_init

theorem ng_foldl_tell_engine (batches : List (List (List NumVal) × List NumVal)) :
    ∀ s : NGState,
      (batches.foldl (fun s b => nevergrad_tell s b.1 b.2) s).engine = s.engine := by
  induction batches with
  | nil => intro s; rfl
  | cons b t ih => intro s; rw [List.foldl_cons, ih, nevergrad_tell_engine]

theorem nevergrad_tell_hist_len (s : NGState) (x : List (List NumVal)) (y : List NumVal)
    (h : x.length = y.length) (hs : s.x_history.length = s.y_history.length) :
    (nevergrad_tell s x y).x_history.length = (nevergrad_tell s x y).y_history.length := by
  unfold nevergrad_tell; split
  · exact hs
  · simp [h, hs]

theorem ng_foldl_tell_hist_len (batches : List (List (List NumVal) × List NumVal))
    (h : ∀ b ∈ batches, b.1.length = b.2.length) :
    ∀ s : NGState, s.x_history.length = s.y_history.length →
      (batches.foldl (fun s b => nevergrad_tell s b.1 b.2) s).x_history.length =
        (batches.foldl (fun s b => nevergrad_tell s b.1 b.2) s).y_history.length := by
  induction batches with
  | nil => intro s hs; exact hs
  | cons b t ih =>
    intro s hs
    rw [List.foldl_cons]
    exact ih (fun b' hb' => h b' (List.mem_cons_of_mem _ hb'))
      _ (nevergrad_tell_hist_len s b.1 b.2 (h b (List.mem_cons_self _ _)) hs)

theorem ngengine_foldl_told (l : List (List NumVal × NumVal)) :
    ∀ e : NGEngine, (l.foldl (fun e p => e.tellOne p.1 p.2) e).told = e.told ++ l := by
  induction l with
  | nil => intro e; simp
  | cons p t ih =>
    intro e
    rw [List.foldl_cons, ih]
    simp [NGEngine.tellOne]

/-- C2 (corrected).  On every `ask` over a history built by any sequence of
`tell` batches, the replay phase leaves the engine having been told exactly
the stored `(x, y)` pairs in original arrival order, so the number of
evaluations fed to the engine equals the number of stored points; a fresh
engine instance is, however, only constructed when the stored history is
non-empty — with an empty history the engine from construction (told
nothing) is reused. -/
theorem c2_ask_replays_full_history (batches : List (List (List NumVal) × List NumVal))
    (hlen : ∀ b ∈ batches, b.1.length = b.2.length) (oracle : NGOracle) (n : ℕ) :
    (nevergrad_ask (ng_run_tells batches) oracle n).state.engine.told =
      (ng_run_tells batches).x_history.zip (ng_run_tells batches).y_history ∧
    (nevergrad_ask (ng_run_tells batches) oracle n).state.engine.told.length =
      (ng_run_tells batches).x_history.length ∧
    ((ng_run_tells batches).x_history ≠ [] →
      (nevergrad_ask (ng_run_tells batches) oracle n).reconstructed = true) := by
  set s := ng_run_tells batches with hs
  have heng : s.engine = ng_create_optimizer := ng_foldl_tell_engine batches ng_init
  have hhl : s.x_history.length = s.y_history.length :=
    ng_foldl_tell_hist_len batches hlen ng_init rfl
  have htold : (nevergrad_ask s oracle n).state.engine.told =
      (ng_replay_history s).engine.told := rfl
  have hrec : (nevergrad_ask s oracle n).reconstructed = !s.x_history.isEmpty := rfl
  by_cases hx : s.x_history.isEmpty = true
  · have hxe : s.x_history = [] := by
      cases hxl : s.x_history with
      | nil => rfl
      | cons a t => rw [hxl] at hx; cases hx
    have hrep : ng_replay_history s = s := by
      unfold ng_replay_history; rw [if_pos hx]
    refine ⟨?_, ?_, ?_⟩
    · rw [htold, hrep, heng, hxe]; rfl
    · rw [htold, hrep, heng, hxe]; rfl
    · intro hne; exact absurd hxe hne
  · have hrep : (ng_replay_history s).engine.told = s.x_history.zip s.y_history := by
      unfold ng_replay_history
      rw [if_neg hx]
      dsimp only
      rw [ngengine_foldl_told]
      rfl
    refine ⟨?_, ?_, ?_⟩
    · rw [htold, hrep]
    · rw [htold, hrep, List.length_zip, ← hhl, min_self]
    · intro _
      have hx' : s.x_history.isEmpty = false := by
        cases hb : s.x_history.isEmpty
        · rfl
        · exact absurd hb hx
      rw [hrec, hx']
      rfl

/-- C2 counterexample: an `ask` on an adapter whose stored history is empty
constructs no fresh engine at all (`_replay_history` returns early), so the
claim's "constructs a fresh engine instance on every single ask call" fails
on that call. -/
theorem c2_cex_no_reconstruction_when_empty :
    (nevergrad_ask ng_init (fun _ _ => []) 1).reconstructed = false := rfl

/-- C2 witness: one stored batch of one point. -/
theorem c2_witness :
    (nevergrad_ask (ng_run_tells [([[NumVal.fin 1]], [NumVal.fin 2])])
        (fun _ _ => []) 1).state.engine.told =
      (ng_run_tells [([[NumVal.fin 1]], [NumVal.fin 2])]).x_history.zip
        (ng_run_tells [([[NumVal.fin 1]], [NumVal.fin 2])]).y_history ∧
    (nevergrad_ask (ng_run_tells [([[NumVal.fin 1]], [NumVal.fin 2])])
        (fun _ _ => []) 1).state.engine.told.length =
      (ng_run_tells [([[NumVal.fin 1]], [NumVal.fin 2])]).x_history.length ∧
    ((ng_run_tells [([[NumVal.fin 1]], [NumVal.fin 2])]).x_history ≠ [] →
      (nevergrad_ask (ng_run_tells [([[NumVal.fin 1]], [NumVal.fin 2])])
        (fun _ _ => []) 1).reconstructed = true) :=
  c2_ask_replays_full_history [([[NumVal.fin 1]], [NumVal.fin 2])]
    (by intro b hb; rw [List.mem_singleton] at hb; subst hb; rfl)
    (fun _ _ => []) 1

/-- C6 (confirmed).  The Continue pipelines on the Nevergrad and SNOBFIT
backends are pure functions of the settings, the history and the random
stream: byte-identical histories (with the engine oracles and random
stream fixed, as a fixed seed fixes them) give identical output batches. -/
theorem c6_continue_deterministic (data1 data2 : List Rec) (names : List String)
    (ngo : NGOracle) (mins maxes : List ℚ) (sbo : SnobOracle) (u : ℕ → ℚ) (n : ℕ)
    (h : data1 = data2) :
    nevergrad_continue data1 names ngo n = nevergrad_continue data2 names ngo n ∧
    snobfit_continue data1 names mins maxes sbo u n =
      snobfit_continue data2 names mins maxes sbo u n := by
  subst h
  exact ⟨rfl, rfl⟩

/-- C6 witness: a concrete one-record history given twice. -/
theorem c6_witness :
    nevergrad_continue [[("x", PyVal.vNum (.fin 1)), ("objective", PyVal.vNum (.fin 2))]]
        ["x"] (fun _ _ => [0]) 1 =
      nevergrad_continue [[("x", PyVal.vNum (.fin 1)), ("objective", PyVal.vNum (.fin 2))]]
        ["x"] (fun _ _ => [0]) 1 ∧
    snobfit_continue [[("x", PyVal.vNum (.fin 1)), ("objective", PyVal.vNum (.fin 2))]]
        ["x"] [0] [1] (fun _ _ _ => []) (fun _ => 0) 1 =
      snobfit_continue [[("x", PyVal.vNum (.fin 1)), ("objective", PyVal.vNum (.fin 2))]]
        ["x"] [0] [1] (fun _ _ _ => []) (fun _ => 0) 1 :=
  c6_continue_deterministic
    [[("x", PyVal.vNum (.fin 1)), ("objective", PyVal.vNum (.fin 2))]]
    [[("x", PyVal.vNum (.fin 1)), ("objective", PyVal.vNum (.fin 2))]]
    ["x"] (fun _ _ => [0]) [0] [1] (fun _ _ _ => []) (fun _ => 0) 1 rfl


/-- C5 (corrected).  The skopt history parser skips — without raising — every
record whose objective is absent, `None`, or a whitespace-empty string, and
keeps, in original arrival order, exactly one `(X, y)` entry per record
whose objective coerces to a float (finiteness is NOT checked: `float('inf')`
and `float('nan')` parse) and whose declared parameters are all present with
float-coercible values; a record with a valid finite objective but a missing
declared parameter is skipped, so "one entry per record with a valid finite
objective" fails. -/
theorem c5_history_parser_characterization (data : List Rec) (names : List String) :
    (∀ r : Rec, sk_objective_missing r = true → sk_row_out names r = none) ∧
    sk_parse_training_data data names =
      ((data.filter (sk_row_accepted names)).map (sk_x_vec names),
       (data.filter (sk_row_accepted names)).map sk_y_val) ∧
    (sk_parse_training_data data names).1.length = data.countP (sk_row_accepted names) := by
  refine ⟨?_, sk_parse_training_data_eq data names, ?_⟩
  · intro r hmiss
    rw [sk_row_out, if_pos hmiss]
  · rw [sk_parse_training_data_eq data names]
    simp [List.countP_eq_length_filter]

/-- C5 counterexample: a record whose objective is the valid finite float
`1.0` but which lacks the declared parameter `x` is skipped entirely, so
the TrainingSet does not contain one entry per record with a valid finite
objective. -/
theorem c5_cex_finite_objective_record_skipped :
    valid_finite_objective [("objective", PyVal.vNum (.fin 1))] = true ∧
    (sk_parse_training_data [[("objective", PyVal.vNum (.fin 1))]] ["x"]).1.length = 0 :=
  ⟨rfl, rfl⟩

/-! ## C10: missing parameters default to 0.0 in the lenient parsers -/

theorem ng_x_vec_length (names : List String) (r : Rec) :
    (ng_x_vec names r).length = names.length := by
  simp [ng_x_vec]

theorem ng_x_vec_getD (names : List String) (r : Rec) (i : ℕ) (hi : i < names.length) :
    (ng_x_vec names r).getD i .nan =
      (pyFloat ((recGet r (names.getD i "")).getD (.vInt 0))).getD (.fin 0) := by
  simp [ng_x_vec, List.getD_eq_getElem?_getD, List.getElem?_map,
    List.getElem?_eq_getElem hi]

/-- C10 (confirmed).  In the Nevergrad and SNOBFIT training-data parsers a
record with a coercible objective whose present parameter values are all
coercible is accepted even when some declared parameter is missing; the
missing coordinates are filled with `0.0` (`float(row.get(name, 0))`). -/
theorem c10_missing_params_default_to_zero (names : List String) (data : List Rec)
    (r : Rec) (y : NumVal) (hmem : r ∈ data)
    (hobj : (recGet r "objective").bind pyFloat = some y)
    (hpresent : ∀ nm ∈ names, ∀ w, recGet r nm = some w → (pyFloat w).isSome)
    (_hmiss : ∃ nm ∈ names, recGet r nm = none) :
    ng_row_out names r = some (ng_x_vec names r, y) ∧
    sb_row_out names r = some (ng_x_vec names r, y) ∧
    ng_x_vec names r ∈ (ng_parse_training_data data names).1 ∧
    ng_x_vec names r ∈ (sb_parse_training_data data names).1 ∧
    (ng_x_vec names r).length = names.length ∧
    (∀ i, i < names.length → recGet r (names.getD i "") = none →
      (ng_x_vec names r).getD i .nan = .fin 0) := by
  have hall : ∀ nm ∈ names, (pyFloat ((recGet r nm).getD (.vInt 0))).isSome := by
    intro nm hm
    cases hg : recGet r nm with
    | none => rfl
    | some w =>
      have := hpresent nm hm w hg
      simpa using this
  have hrow : ng_row_out names r = some (ng_x_vec names r, y) :=
    ng_row_out_eq_some names r y hobj hall
  have hmemrows : (ng_x_vec names r, y) ∈ ng_rows data names :=
    List.mem_filterMap.mpr ⟨r, hmem, hrow⟩
  have hmemx : ng_x_vec names r ∈ (ng_parse_training_data data names).1 := by
    rw [ng_parse_eq_rows]
    exact List.mem_map.mpr ⟨(ng_x_vec names r, y), hmemrows, rfl⟩
  refine ⟨hrow, hrow, hmemx, hmemx, ng_x_vec_length names r, ?_⟩
  intro i hi hnone
  rw [ng_x_vec_getD names r i hi, hnone]
  simp [pyFloat]

/-- C10 witness: names `x, y`; the record carries `x` and an objective but
no `y`. -/
theorem c10_witness :
    ng_row_out ["x", "y"] [("x", PyVal.vNum (.fin 1)), ("objective", PyVal.vNum (.fin 2))] =
      some (ng_x_vec ["x", "y"]
        [("x", PyVal.vNum (.fin 1)), ("objective", PyVal.vNum (.fin 2))], .fin 2) ∧
    sb_row_out ["x", "y"] [("x", PyVal.vNum (.fin 1)), ("objective", PyVal.vNum (.fin 2))] =
      some (ng_x_vec ["x", "y"]
        [("x", PyVal.vNum (.fin 1)), ("objective", PyVal.vNum (.fin 2))], .fin 2) ∧
    ng_x_vec ["x", "y"] [("x", PyVal.vNum (.fin 1)), ("objective", PyVal.vNum (.fin 2))] ∈
      (ng_parse_training_data
        [[("x", PyVal.vNum (.fin 1)), ("objective", PyVal.vNum (.fin 2))]] ["x", "y"]).1 ∧
    ng_x_vec ["x", "y"] [("x", PyVal.vNum (.fin 1)), ("objective", PyVal.vNum (.fin 2))] ∈
      (sb_parse_training_data
        [[("x", PyVal.vNum (.fin 1)), ("objective", PyVal.vNum (.fin 2))]] ["x", "y"]).1 ∧
    (ng_x_vec ["x", "y"]
      [("x", PyVal.vNum (.fin 1)), ("objective", PyVal.vNum (.fin 2))]).length = 2 ∧
    (∀ i, i < (["x", "y"] : List String).length →
      recGet [("x", PyVal.vNum (.fin 1)), ("objective", PyVal.vNum (.fin 2))]
        ((["x", "y"] : List String).getD i "") = none →
      (ng_x_vec ["x", "y"]
        [("x", PyVal.vNum (.fin 1)), ("objective", PyVal.vNum (.fin 2))]).getD i .nan = .fin 0) :=
  c10_missing_params_default_to_zero ["x", "y"]
    [[("x", PyVal.vNum (.fin 1)), ("objective", PyVal.vNum (.fin 2))]]
    [("x", PyVal.vNum (.fin 1)), ("objective", PyVal.vNum (.fin 2))] (.fin 2)
    (List.mem_singleton.mpr rfl) rfl
    (by intro nm hm w hw
        rcases List.mem_cons.mp hm with rfl | hm2
        · have hx : recGet [("x", PyVal.vNum (.fin 1)),
              ("objective", PyVal.vNum (.fin 2))] "x" = some (.vNum (.fin 1)) := rfl
          rw [hx] at hw
          injection hw with hw'
          subst hw'
          rfl
        · rcases List.mem_cons.mp hm2 with rfl | hm3
          · have hy : recGet [("x", PyVal.vNum (.fin 1)),
                ("objective", PyVal.vNum (.fin 2))] "y" = none := rfl
            rw [hy] at hw
            cases hw
          · cases hm3)
    ⟨"y", by decide, rfl⟩


/-- A payload that requests the `RANDOM` backend. -/
def randomPayload : RawSettings :=
  { num_params := some (.vInt 1)
    param_names := some [.vStr "x"]
    param_mins := some [.vNum (.fin 0)]
    param_maxes := some [.vNum (.fin 1)]
    num_init_points := none
    batch_size := none
    base_estimator := some "RANDOM"
    acquisition_function := none }

/-- A well-formed two-parameter payload with distinct names. -/
def twoParamPayload : RawSettings :=
  { num_params := some (.vInt 2)
    param_names := some [.vStr "x", .vStr "y"]
    param_mins := some [.vNum (.fin 0), .vNum (.fin 0)]
    param_maxes := some [.vNum (.fin 1), .vNum (.fin 1)]
    num_init_points := none
    batch_size := none
    base_estimator := some "SKOPT-GP"
    acquisition_function := none }

/-- A well-formed payload whose backend identifier is the bare name `GP`. -/
def bareGpPayload : RawSettings :=
  { twoParamPayload with base_estimator := some "GP" }

/-- C3 (corrected).  The dispatcher has no random-search branch: any request
naming backend `"RANDOM"` fails settings validation (the estimator
whitelist), the Continue handler returns an error without constructing any
engine, and even called directly the dispatcher raises unknown-type for
`"RANDOM"`.  (Random search exists only client-side, in `evaluate.py`.) -/
theorem c3_random_backend_rejected (raw : RawSettings) (data : List Rec)
    (eng : SkoptEngine) (h : raw.base_estimator = some "RANDOM") :
    validate_optimizer_settings raw ≠ .ok () ∧
    (continue_handler raw data eng).engines = 0 ∧
    (∃ e, (continue_handler raw data eng).resp = .error e) ∧
    dispatch_backend "RANDOM" = .error (.unknownType "RANDOM") := by
  have hne : validate_optimizer_settings raw ≠ .ok () := by
    intro hok
    obtain ⟨npv, names, mins, maxes, np, hnp, hnames, hmins, hmaxes, hpi, h1, h2,
      hlen, hfind, hminl, hmaxl, hpairs, hinit, hbatch, hest, hacq⟩ :=
      validate_ok_components raw hok
    have hres : est_resolved raw = "RANDOM" := by
      unfold est_resolved
      rw [h]
      rfl
    rw [hres] at hest
    exact absurd hest (by decide)
  refine ⟨hne, ?_, ?_, rfl⟩
  · cases hv : validate_optimizer_settings raw with
    | ok u => cases u; exact absurd hv hne
    | error e => simp [continue_handler, hv]
  · cases hv : validate_optimizer_settings raw with
    | ok u => cases u; exact absurd hv hne
    | error e => exact ⟨.settingsErr e, by simp [continue_handler, hv]⟩

/-- C3 witness: the concrete `RANDOM` payload with a non-empty history. -/
theorem c3_witness :
    validate_optimizer_settings randomPayload ≠ .ok () ∧
    (continue_handler randomPayload [[("x", PyVal.vNum (.fin 0)),
        ("objective", PyVal.vNum (.fin 1))]] (fun _ _ => [])).engines = 0 ∧
    (∃ e, (continue_handler randomPayload [[("x", PyVal.vNum (.fin 0)),
        ("objective", PyVal.vNum (.fin 1))]] (fun _ _ => [])).resp = .error e) ∧
    dispatch_backend "RANDOM" = .error (.unknownType "RANDOM") :=
  c3_random_backend_rejected randomPayload
    [[("x", PyVal.vNum (.fin 0)), ("objective", PyVal.vNum (.fin 1))]]
    (fun _ _ => []) rfl

/-- C3 counterexample: for the concrete `RANDOM` payload the claim's
"constructs the random-search backend and returns batch_size samples" is
false — validation rejects it and the dispatcher raises. -/
theorem c3_cex_random_is_unknown :
    validate_optimizer_settings randomPayload = .error .badEstimator ∧
    dispatch_backend "RANDOM" = .error (.unknownType "RANDOM") :=
  ⟨rfl, rfl⟩

/-- C4 (corrected).  The dispatcher resolves only `PREFIX-ALGORITHM`
identifiers, matching the prefix case-insensitively, and the only
recognised prefix is `SKOPT`; any identifier without a hyphen — including
the bare recognised estimator name `"GP"` — raises unknown-type, as does
any unrecognised prefix.  Bare names are not treated as implicit
surrogate-model requests. -/
theorem c4_dispatch_prefix_only :
    (∀ t : String, splitOnce t = none → dispatch_backend t = .error (.unknownType t)) ∧
    dispatch_backend "GP" = .error (.unknownType "GP") ∧
    (∀ algo : String,
        dispatch_backend ("skopt-" ++ algo) = .ok (.skopt (strUpper algo)) ∧
        dispatch_backend ("SKOPT-" ++ algo) = .ok (.skopt (strUpper algo))) ∧
    (∀ t p a : String, splitOnce t = some (p, a) → strUpper p ≠ "SKOPT" →
        dispatch_backend t = .error (.unknownType t)) := by
  refine ⟨?_, rfl, ?_, ?_⟩
  · intro t ht
    unfold dispatch_backend
    rw [ht]
  · intro algo
    obtain ⟨l⟩ := algo
    constructor
    · have hs : splitOnce ("skopt-" ++ String.mk l) = some ("skopt", String.mk l) := by
        show splitOnce (String.mk ("skopt-".data ++ l)) = _
        simp [splitOnce, splitOnceAux]
      unfold dispatch_backend
      rw [hs]
      dsimp only
      rw [if_pos (by decide)]
    · have hs : splitOnce ("SKOPT-" ++ String.mk l) = some ("SKOPT", String.mk l) := by
        show splitOnce (String.mk ("SKOPT-".data ++ l)) = _
        simp [splitOnce, splitOnceAux]
      unfold dispatch_backend
      rw [hs]
      dsimp only
      rw [if_pos (by decide)]
  · intro t p a ht hne
    unfold dispatch_backend
    rw [ht]
    dsimp only
    rw [if_neg hne]

/-- C4 counterexample: the bare name `"GP"` is a recognised estimator —
settings validation accepts it — yet the dispatcher raises unknown-type
instead of treating it as an implicit surrogate-model request. -/
theorem c4_cex_bare_gp_raises :
    validate_optimizer_settings bareGpPayload = .ok () ∧
    dispatch_backend "GP" = .error (.unknownType "GP") :=
  ⟨rfl, rfl⟩

/-- C7 (corrected).  A payload in which some dimension's parsed `min` is
`>=` its parsed `max` is always rejected by settings validation, and the
Continue handler then returns the validation error having constructed no
optimizer engine; the rejection error, however, need not name the
offending parameter — the `1e10` magnitude check can fire first with an
unnamed-parameter message. -/
theorem c7_min_ge_max_rejected_before_engine (raw : RawSettings) (data : List Rec)
    (eng : SkoptEngine) (mins maxes : List PyVal)
    (hm : raw.param_mins = some mins) (hx : raw.param_maxes = some maxes)
    (a b : PyVal) (hpair : (a, b) ∈ mins.zip maxes) (av bv : NumVal)
    (ha : pyFloat a = some av) (hb : pyFloat b = some bv)
    (hge : pyGe av bv = true) :
    validate_optimizer_settings raw ≠ .ok () ∧
    (continue_handler raw data eng).engines = 0 ∧
    (∃ e, (continue_handler raw data eng).resp = .error (.settingsErr e)) := by
  have hne : validate_optimizer_settings raw ≠ .ok () := by
    intro hok
    obtain ⟨npv, names, mins', maxes', np, hnp, hnames, hmins', hmaxes', hpi, h1, h2,
      hlen, hfind, hminl, hmaxl, hpairs, hinit, hbatch, hest, hacq⟩ :=
      validate_ok_components raw hok
    rw [hm] at hmins'
    injection hmins' with hm1
    rw [hx] at hmaxes'
    injection hmaxes' with hm2
    subst hm1
    subst hm2
    have hp := hpairs (a, b) hpair
    simp only [boundsPairOk, ha, hb, Bool.and_eq_true, Bool.not_eq_true'] at hp
    rw [hp.2] at hge
    cases hge
  refine ⟨hne, ?_, ?_⟩
  · cases hv : validate_optimizer_settings raw with
    | ok u => cases u; exact absurd hv hne
    | error e => simp [continue_handler, hv]
  · cases hv : validate_optimizer_settings raw with
    | ok u => cases u; exact absurd hv hne
    | error e => exact ⟨e, by simp [continue_handler, hv]⟩

/-- C7 witness: one parameter `a` with bounds `[0, 0]`. -/
theorem c7_witness :
    validate_optimizer_settings zeroWidthBoundsPayload ≠ .ok () ∧
    (continue_handler zeroWidthBoundsPayload [] (fun _ _ => [])).engines = 0 ∧
    (∃ e, (continue_handler zeroWidthBoundsPayload [] (fun _ _ => [])).resp =
      .error (.settingsErr e)) :=
  c7_min_ge_max_rejected_before_engine zeroWidthBoundsPayload [] (fun _ _ => [])
    [.vNum (.fin 0)] [.vNum (.fin 0)] rfl rfl
    (.vNum (.fin 0)) (.vNum (.fin 0)) (List.mem_singleton.mpr rfl)
    (.fin 0) (.fin 0) rfl rfl (by decide)

/-- C7 counterexample: bounds `min = 2e10 >= max = 1e10` for parameter `a`
are rejected by the magnitude check, whose message
(`'Parameter bounds too large (max ±1e10)'`) does not name `a` — so the
claim's "an error naming the offending parameter" fails. -/
theorem c7_cex_rejection_without_naming :
    validate_optimizer_settings overflowBoundsPayload = .error .boundsTooLarge ∧
    mentionsParam .boundsTooLarge "a" = false ∧
    pyGe (.fin 20000000000) (.fin 10000000000) = true :=
  ⟨rfl, rfl, by decide⟩

/-- C8 (corrected).  Settings validation never checks name uniqueness:
overwriting any name slot of an accepted payload with a copy of another of
its (accepted) names leaves the payload accepted, duplicate and all. -/
theorem c8_duplicate_names_still_accepted (d : RawSettings) (names : List PyVal)
    (hn : d.param_names = some names) (i j : ℕ)
    (hi : i < names.length) (_hj : j < names.length)
    (hok : validate_optimizer_settings d = .ok ()) :
    validate_optimizer_settings
      { d with param_names := some (names.set j (names.getD i (.vStr ""))) } = .ok () := by
  obtain ⟨npv, names', mins, maxes, np, hnp, hnames, hmins, hmaxes, hpi, h1, h2,
    hlen, hfind, hminl, hmaxl, hpairs, hinit, hbatch, hest, hacq⟩ :=
    validate_ok_components d hok
  rw [hn] at hnames
  injection hnames with hnn
  subst hnn
  have hall : ∀ v ∈ names, (pyIsStr v && nameOk (pyName v)) = true := by
    intro v hv
    have hfv := List.find?_eq_none.mp hfind v hv
    simpa using hfv
  apply validate_ok_build _ npv (names.set j (names.getD i (.vStr ""))) mins maxes np
  · exact hnp
  · rfl
  · exact hmins
  · exact hmaxes
  · exact hpi
  · exact h1
  · exact h2
  · rw [List.length_set]
    exact hlen
  · intro v hv
    rcases List.mem_or_eq_of_mem_set hv with hmem | rfl
    · exact hall v hmem
    · apply hall
      have hg : names.getD i (.vStr "") = names.get ⟨i, hi⟩ := by
        rw [List.getD_eq_getElem?_getD, List.getElem?_eq_getElem hi]
        rfl
      rw [hg]
      exact names.get_mem i hi
  · exact hminl
  · exact hmaxl
  · exact hpairs
  · exact hinit
  · exact hbatch
  · exact hest
  · exact hacq

/-- C8 witness: duplicating name `x` over name `y` in an accepted
two-parameter payload keeps it accepted. -/
theorem c8_witness :
    validate_optimizer_settings
      { twoParamPayload with
        param_names := some ([PyVal.vStr "x", PyVal.vStr "y"].set 1
          ([PyVal.vStr "x", PyVal.vStr "y"].getD 0 (.vStr ""))) } = .ok () :=
  c8_duplicate_names_still_accepted twoParamPayload [PyVal.vStr "x", PyVal.vStr "y"]
    rfl 0 1 (by decide) (by decide) rfl

/-- C8 counterexample: a payload whose two parameter names are both `x`
passes validation, refuting "settings validation rejects the payload". -/
theorem c8_cex_duplicates_pass_validation :
    validate_optimizer_settings dupNamesPayload = .ok () ∧
    (dupNamesPayload.param_names.getD []).getD 0 (.vStr "a") =
      (dupNamesPayload.param_names.getD []).getD 1 (.vStr "b") :=
  ⟨rfl, rfl⟩

end GsOpt
